import Mathlib

/-!
Verification of the auto-sendmail application core.

The development shallowly embeds the Python modules of the repository:
`app/ai_generator.py` (AI response parsing with JSON fallback),
`app/config.py` (account and application configuration validation),
`app/scheduler.py` (cron parsing, job registration and the per-job task body),
and `app/telegram_notifier.py` (best-effort result notification).

Strings are handled through their underlying character lists so that every
definition evaluates by kernel reduction.  Python library behaviour that the
code relies on (`json.loads`, `str.strip`, `str.split`, truthiness) is
modelled by executable Lean functions that follow the library semantics.
-/

/-- Whitespace set used by Python `str.strip()` and no-argument `str.split()`
(the ASCII whitespace characters; the code only ever strips ASCII data). -/
def isPyWs (c : Char) : Bool :=
  c == ' ' || c == '\t' || c == '\n' || c == '\r' || c == '\x0b' || c == '\x0c'

/-- Model of Python `str.strip()` on the character list of a string. -/
def pyStripL (l : List Char) : List Char :=
  ((l.dropWhile isPyWs).reverse.dropWhile isPyWs).reverse

/-- Model of Python `str.strip()` on strings. -/
def pyStripS (s : String) : String :=
  String.mk (pyStripL s.data)

/-- Model of Python `str.split("\n")`: split on each newline, keeping empty
pieces, so the result always has at least one element. -/
def splitNL : List Char → List (List Char)
  | [] => [[]]
  | c :: rest =>
    if c = '\n' then [] :: splitNL rest
    else
      match splitNL rest with
      | [] => [[c]]
      | l :: ls => (c :: l) :: ls

/-- Model of Python `"\n".join(...)` on character lists. -/
def joinNL : List (List Char) → List Char
  | [] => []
  | l :: ls =>
    match ls with
    | [] => l
    | _ => l ++ '\n' :: joinNL ls

/-- Model of the word-splitting done by no-argument Python `str.split()`:
runs of whitespace separate words and produce no empty entries. -/
def wordsAux : List Char → List Char → List (List Char)
  | [], acc => if acc.isEmpty then [] else [acc.reverse]
  | c :: rest, acc =>
    if isPyWs c then
      if acc.isEmpty then wordsAux rest [] else acc.reverse :: wordsAux rest []
    else wordsAux rest (c :: acc)

/-- Model of Python `s.split()` (no separator argument) on character lists. -/
def pySplitWsL (l : List Char) : List (List Char) :=
  wordsAux l []

/-- The backtick character (U+0060), written via its code point. -/
def backtick : Char :=
  Char.ofNat 96

/-- The three-backtick fence marker checked by `startswith` in the source. -/
def fenceChars : List Char :=
  [backtick, backtick, backtick]

/-- Model of Python `s.startswith("```")` on character lists. -/
def startsWithTicks (l : List Char) : Bool :=
  fenceChars.isPrefixOf l

/-- Markdown fence cleanup performed by `AIGenerator.generate` before JSON
parsing: when the (already stripped) content starts with three backticks,
every line whose stripped form starts with three backticks is removed and
the remaining lines are rejoined with newlines. -/
def cleanContentL (c : List Char) : List Char :=
  if startsWithTicks c then
    joinNL ((splitNL c).filter (fun l => !(startsWithTicks (pyStripL l))))
  else c

/-! ## A model of Python `json.loads`

Values are represented by `JsonVal`.  Integers are exact (Python ints are
arbitrary precision); floats keep their source lexeme, which is all the
embedded code ever needs (the application never does float arithmetic on
parsed values).  Objects keep their key/value pairs in parse order; lookups
take the last binding of a key, matching Python dict construction. -/

inductive JsonVal where
  | jnull
  | jbool (b : Bool)
  | jint (n : Int)
  | jfloat (lexeme : String)
  | jstr (s : String)
  | jarr (elems : List JsonVal)
  | jobj (pairs : List (String × JsonVal))

/-- Lookup in a parsed JSON object, with Python dict semantics: when a key
occurs several times the last occurrence wins. -/
def dictGet (pairs : List (String × JsonVal)) (k : String) : Option JsonVal :=
  (pairs.reverse.find? (fun p => p.1 == k)).map (fun p => p.2)

/-- JSON whitespace skipped by the `json` scanner (space, tab, newline,
carriage return). -/
def isJsonWs (c : Char) : Bool :=
  c == ' ' || c == '\t' || c == '\n' || c == '\r'

/-- Drop leading JSON whitespace. -/
def skipWs (l : List Char) : List Char :=
  l.dropWhile isJsonWs

/-- Value of a single hexadecimal digit, if any. -/
def hexVal (c : Char) : Option Nat :=
  if c.isDigit then some (c.toNat - 48)
  else if 'a' ≤ c && c ≤ 'f' then some (c.toNat - 87)
  else if 'A' ≤ c && c ≤ 'F' then some (c.toNat - 55)
  else none

/-- Read four hexadecimal digits, as in a JSON `\uXXXX` escape. -/
def hex4 : List Char → Option (Nat × List Char)
  | a :: b :: c :: d :: rest =>
    match hexVal a, hexVal b, hexVal c, hexVal d with
    | some x, some y, some z, some w => some ((((x * 16 + y) * 16 + z) * 16 + w), rest)
    | _, _, _, _ => none
  | _ => none

/-- Parse the characters of a JSON string after the opening quote, returning
the decoded characters and the remaining input.  Mirrors the strict mode of
Python `json.loads`: raw control characters and unknown escapes are errors.
Surrogate pairs in `\u` escapes are combined; a lone surrogate (which Python
would keep as an unpaired code unit, something a Lean `Char` cannot hold) is
rejected — no input in this development contains one. -/
def parseStrChars : Nat → List Char → Option (List Char × List Char)
  | 0, _ => none
  | _ + 1, [] => none
  | f + 1, c :: rest =>
    if c = '\x22' then some ([], rest)
    else if c = '\\' then
      match rest with
      | [] => none
      | e :: rest2 =>
        if e = '\x22' then (parseStrChars f rest2).map (fun p => ('\x22' :: p.1, p.2))
        else if e = '\\' then (parseStrChars f rest2).map (fun p => ('\\' :: p.1, p.2))
        else if e = '/' then (parseStrChars f rest2).map (fun p => ('/' :: p.1, p.2))
        else if e = 'b' then (parseStrChars f rest2).map (fun p => ('\x08' :: p.1, p.2))
        else if e = 'f' then (parseStrChars f rest2).map (fun p => ('\x0c' :: p.1, p.2))
        else if e = 'n' then (parseStrChars f rest2).map (fun p => ('\n' :: p.1, p.2))
        else if e = 'r' then (parseStrChars f rest2).map (fun p => ('\r' :: p.1, p.2))
        else if e = 't' then (parseStrChars f rest2).map (fun p => ('\t' :: p.1, p.2))
        else if e = 'u' then
          match hex4 rest2 with
          | none => none
          | some (n, rest3) =>
            if 0xD800 ≤ n && n ≤ 0xDBFF then
              match rest3 with
              | '\\' :: 'u' :: rest4 =>
                match hex4 rest4 with
                | some (m, rest5) =>
                  if 0xDC00 ≤ m && m ≤ 0xDFFF then
                    let code := 0x10000 + (n - 0xD800) * 0x400 + (m - 0xDC00)
                    (parseStrChars f rest5).map (fun p => (Char.ofNat code :: p.1, p.2))
                  else none
                | none => none
              | _ => none
            else if 0xDC00 ≤ n && n ≤ 0xDFFF then none
            else (parseStrChars f rest3).map (fun p => (Char.ofNat n :: p.1, p.2))
        else none
    else if c.toNat < 0x20 then none
    else (parseStrChars f rest).map (fun p => (c :: p.1, p.2))

/-- Digits to the natural number they denote in base 10. -/
def digitsToNat (ds : List Char) : Nat :=
  ds.foldl (fun acc c => acc * 10 + (c.toNat - 48)) 0

/-- Parse a JSON number with the grammar accepted by Python `json.loads`:
`-?(0|[1-9][0-9]*)(\.[0-9]+)?([eE][+-]?[0-9]+)?`.  A number with neither a
fraction nor an exponent is an exact integer; otherwise the float lexeme is
kept. -/
def parseNumber (cs : List Char) : Option (JsonVal × List Char) :=
  let neg := match cs with
    | '-' :: _ => true
    | _ => false
  let cs1 := if neg then cs.drop 1 else cs
  match cs1 with
  | [] => none
  | c :: _ =>
    if c.isDigit then
      let intPart := if c = '0' then ['0'] else cs1.takeWhile Char.isDigit
      let rest1 := cs1.drop intPart.length
      let fracPair :=
        match rest1 with
        | '.' :: r =>
          let ds := r.takeWhile Char.isDigit
          if ds.isEmpty then (([] : List Char), rest1) else ('.' :: ds, r.drop ds.length)
        | _ => (([] : List Char), rest1)
      let fracPart := fracPair.1
      let rest2 := fracPair.2
      let expPair :=
        match rest2 with
        | e :: r =>
          if e = 'e' || e = 'E' then
            let sgnPair :=
              match r with
              | s :: r2 => if s = '+' || s = '-' then ([s], r2) else (([] : List Char), r)
              | [] => (([] : List Char), r)
            let ds := sgnPair.2.takeWhile Char.isDigit
            if ds.isEmpty then (([] : List Char), rest2)
            else (e :: (sgnPair.1 ++ ds), sgnPair.2.drop ds.length)
          else (([] : List Char), rest2)
        | [] => (([] : List Char), rest2)
      let expPart := expPair.1
      let rest3 := expPair.2
      if fracPart.isEmpty && expPart.isEmpty then
        let n : Int := Int.ofNat (digitsToNat intPart)
        some (.jint (if neg then -n else n), rest1)
      else
        some (.jfloat (String.mk ((if neg then ['-'] else []) ++ intPart ++ fracPart ++ expPart)), rest3)
    else none

mutual

/-- Fuel-indexed recursive-descent parser for one JSON value, following the
scanner of Python `json.loads` (which also accepts the non-standard constants
`NaN`, `Infinity` and `-Infinity`).  Leading whitespace is skipped. -/
def parseVal : Nat → List Char → Option (JsonVal × List Char)
  | 0, _ => none
  | f + 1, cs =>
    match skipWs cs with
    | 'n' :: 'u' :: 'l' :: 'l' :: rest => some (.jnull, rest)
    | 't' :: 'r' :: 'u' :: 'e' :: rest => some (.jbool true, rest)
    | 'f' :: 'a' :: 'l' :: 's' :: 'e' :: rest => some (.jbool false, rest)
    | 'N' :: 'a' :: 'N' :: rest => some (.jfloat "nan", rest)
    | 'I' :: 'n' :: 'f' :: 'i' :: 'n' :: 'i' :: 't' :: 'y' :: rest => some (.jfloat "inf", rest)
    | '-' :: 'I' :: 'n' :: 'f' :: 'i' :: 'n' :: 'i' :: 't' :: 'y' :: rest => some (.jfloat "-inf", rest)
    | '\x22' :: rest => (parseStrChars (f + 1) rest).map (fun p => (.jstr (String.mk p.1), p.2))
    | '[' :: rest =>
      match skipWs rest with
      | ']' :: rest2 => some (.jarr [], rest2)
      | rest2 => (parseItems f rest2).map (fun p => (.jarr p.1, p.2))
    | '{' :: rest =>
      match skipWs rest with
      | '}' :: rest2 => some (.jobj [], rest2)
      | rest2 => (parsePairs f rest2).map (fun p => (.jobj p.1, p.2))
    | rest => parseNumber rest

/-- Elements of a non-empty JSON array after the opening bracket. -/
def parseItems : Nat → List Char → Option (List JsonVal × List Char)
  | 0, _ => none
  | f + 1, cs =>
    match parseVal f cs with
    | none => none
    | some (v, rest) =>
      match skipWs rest with
      | ',' :: rest2 =>
        match parseItems f (skipWs rest2) with
        | none => none
        | some (vs, rest3) => some (v :: vs, rest3)
      | ']' :: rest2 => some ([v], rest2)
      | _ => none

/-- Members of a non-empty JSON object after the opening brace. -/
def parsePairs : Nat → List Char → Option (List (String × JsonVal) × List Char)
  | 0, _ => none
  | f + 1, cs =>
    match skipWs cs with
    | '\x22' :: rest =>
      match parseStrChars (f + 1) rest with
      | none => none
      | some (kchars, rest1) =>
        match skipWs rest1 with
        | ':' :: rest2 =>
          match parseVal f rest2 with
          | none => none
          | some (v, rest3) =>
            match skipWs rest3 with
            | ',' :: rest4 =>
              match parsePairs f rest4 with
              | none => none
              | some (ps, rest5) => some ((String.mk kchars, v) :: ps, rest5)
            | '}' :: rest4 => some ([(String.mk kchars, v)], rest4)
            | _ => none
        | _ => none
    | _ => none

end

/-- Model of Python `json.loads` on a character list: parse one value and
require only whitespace afterwards (Python raises `JSONDecodeError` with
"Extra data" otherwise); `none` models `json.JSONDecodeError`.  The fuel
`4 * length + 8` strictly dominates the recursion depth, which grows by at
most two per consumed character. -/
def jsonLoadsL (cs : List Char) : Option JsonVal :=
  match parseVal (4 * cs.length + 8) cs with
  | some (v, rest) => if (skipWs rest).isEmpty then some v else none
  | none => none

/-! ## Python value helpers used by the embedded code -/

/-- Does the mantissa of a float lexeme contain a nonzero digit?  A JSON
float denotes `0.0` exactly when every digit before the exponent marker is
zero. -/
def mantissaNonZero (lex : String) : Bool :=
  (lex.data.takeWhile (fun c => c != 'e' && c != 'E')).any (fun c => c.isDigit && c != '0')

/-- Model of Python truthiness (`bool(x)`) on parsed JSON values: `None` and
`False` are falsy, numbers are falsy exactly when zero, strings and
containers exactly when empty. -/
def pyTruthy : JsonVal → Bool
  | .jnull => false
  | .jbool b => b
  | .jint n => n != 0
  | .jfloat lex => lex == "nan" || lex == "inf" || lex == "-inf" || mantissaNonZero lex
  | .jstr s => !s.isEmpty
  | .jarr xs => !xs.isEmpty
  | .jobj m => !m.isEmpty

/-- Python `repr` of a string, simplified to single quotes with backslash
and quote escaping; only reached for strings nested inside containers. -/
def pyReprStr (s : String) : String :=
  String.mk ('\x27' :: (s.data.foldr
    (fun c acc => if c = '\x27' || c = '\\' then '\\' :: c :: acc else c :: acc)
    ['\x27']))

mutual

/-- Model of Python `repr` on parsed JSON values, used when a container is
formatted into the subject string by the f-string; no claim exercises it. -/
def pyRepr : JsonVal → String
  | .jnull => "None"
  | .jbool b => if b then "True" else "False"
  | .jint n => toString n
  | .jfloat lex => lex
  | .jstr s => pyReprStr s
  | .jarr xs => "[" ++ pyReprList xs ++ "]"
  | .jobj m => "\x7b" ++ pyReprPairs m ++ "\x7d"

/-- Comma-separated `repr` of list elements. -/
def pyReprList : List JsonVal → String
  | [] => ""
  | [v] => pyRepr v
  | v :: vs => pyRepr v ++ ", " ++ pyReprList vs

/-- Comma-separated `repr` of dict items. -/
def pyReprPairs : List (String × JsonVal) → String
  | [] => ""
  | [p] => pyReprStr p.1 ++ ": " ++ pyRepr p.2
  | p :: ps => pyReprStr p.1 ++ ": " ++ pyRepr p.2 ++ ", " ++ pyReprPairs ps

end

/-- Model of Python `str(x)` on parsed JSON values, as used by the f-string
that prepends the subject prefix.  On strings it is the identity — the only
case the specification's scenarios reach. -/
def pyStr : JsonVal → String
  | .jstr s => s
  | .jnull => "None"
  | .jbool b => if b then "True" else "False"
  | .jint n => toString n
  | .jfloat lex => lex
  | .jarr xs => pyRepr (.jarr xs)
  | .jobj m => pyRepr (.jobj m)

/-- Message of the `AttributeError` Python raises when `parsed.get` is
called on a non-dict JSON value (that exception is re-raised by the final
`except Exception` handler of `generate`). -/
def noAttrGetMsg (v : JsonVal) : String :=
  let tyName := match v with
    | .jnull => "NoneType"
    | .jbool _ => "bool"
    | .jint _ => "int"
    | .jfloat _ => "float"
    | .jstr _ => "str"
    | .jarr _ => "list"
    | .jobj _ => "dict"
  "\x27" ++ tyName ++ "\x27 object has no attribute \x27get\x27"

/-! ## `app/ai_generator.py` -/

/-- Generated email content (`EmailContent` dataclass).  Python does not
enforce the `str` annotations: the fields hold whatever objects the parsed
JSON supplied, so they are carried as `JsonVal` (plain strings appear as
`JsonVal.jstr`). -/
structure EmailContent where
  subject : JsonVal
  body : JsonVal

/-- The content `AIGenerator.generate` feeds to `json.loads`: the model
response stripped of surrounding whitespace, then fence-cleaned. -/
def rawContentOf (raw : String) : List Char :=
  cleanContentL (pyStripL raw.data)

/-- Core of `AIGenerator.generate` after the cleanup: parse the content as
JSON; on success read `subject` (falling back to "日常问候" when the key is
absent) and `body` (defaulting to the empty string), prepend the subject
prefix when it is non-empty, and reject an untruthy body with a
`ValueError`; on a `JSONDecodeError` degrade to the cleaned content as the
body with the (possibly prefixed) fallback subject; a successful parse that
is not an object makes `parsed.get` raise, which the final handler
re-raises. -/
def generateFromCleaned (raw_content : List Char) ( subject_prefix : String) : Except String EmailContent :=
  match jsonLoadsL raw_content with
  | some (.jobj pairs) =>
    let subject0 := (dictGet pairs "subject").getD (.jstr "日常问候")
    let body := (dictGet pairs "body").getD (.jstr "")
    let subject := if subject_prefix ≠ "" then JsonVal.jstr ( subject_prefix ++ pyStr subject0) else subject0
    if !(pyTruthy body) then .error "AI 返回的邮件正文为空"
    else .ok ⟨subject, body⟩
  | some v => .error (noAttrGetMsg v)
  | none =>
    .ok ⟨.jstr (if subject_prefix ≠ "" then subject_prefix ++ "日常问候" else "日常问候"),
         .jstr (String.mk raw_content)⟩

/-- Model of `AIGenerator.generate` as a function of the raw model response
text (the chat-completion transport is the caller's oracle, see
`generate`). -/
def generateFromResponse (raw : String) ( subject_prefix : String) : Except String EmailContent :=
  generateFromCleaned (rawContentOf raw) subject_prefix

/-- Full `AIGenerator.generate`: a transport-level failure of the
chat-completion call is re-raised by the `except Exception` handler and
propagates to the caller. -/
def generate (apiResult : Except String String) ( subject_prefix : String) : Except String EmailContent :=
  match apiResult with
  | .error e => .error e
  | .ok raw => generateFromResponse raw subject_prefix

/-! ## `app/config.py` -/

/-- Single account configuration (`AccountConfig` dataclass fields). -/
structure AccountConfig where
  name : String
  from_email : String
  from_name : String
  to_email : String
  cron : String
  ai_prompt : String
  subject_prefix : String := ""

/-- Model of `getattr(self, field_name, "")` on an `AccountConfig`. -/
def getattrStr (a : AccountConfig) : String → String
  | "name" => a.name
  | "from_email" => a.from_email
  | "from_name" => a.from_name
  | "to_email" => a.to_email
  | "cron" => a.cron
  | "ai_prompt" => a.ai_prompt
  | "subject_prefix" => a.subject_prefix
  | _ => ""

/-- The required-field list checked by `AccountConfig.__post_init__`. -/
def requiredFields : List String :=
  ["name", "from_email", "to_email", "cron", "ai_prompt"]

/-- Error message for a missing required account field. -/
def missingFieldMsg (fieldName : String) : String :=
  "账号配置缺少必填字段: " ++ fieldName

/-- Error message for a cron expression without exactly five fields, raised
by `AccountConfig.__post_init__`. -/
def cronFormatMsg (a : AccountConfig) (count : Nat) : String :=
  "[" ++ a.name ++ "] cron 表达式格式错误，需要 5 个字段 (分 时 日 月 周)，当前为 "
    ++ toString count ++ " 个字段: \x27" ++ a.cron ++ "\x27"

/-- Model of `AccountConfig.__post_init__`: raise `ValueError` naming the
first required field that is empty after trimming, then require the cron
expression to split into exactly five whitespace-separated fields. -/
def AccountConfig.validate (a : AccountConfig) : Except String AccountConfig :=
  match requiredFields.find? (fun n => pyStripS (getattrStr a n) == "") with
  | some n => .error (missingFieldMsg n)
  | none =>
    let parts := pySplitWsL (pyStripL a.cron.data)
    if parts.length ≠ 5 then .error (cronFormatMsg a parts.length)
    else .ok a

/-- Global application configuration (`AppConfig` dataclass fields). -/
structure AppConfig where
  resend_api_key : String
  ai_api_key : String
  ai_api_base : String
  ai_model : String
  accounts : List AccountConfig
  timezone : String := "Asia/Shanghai"
  tg_bot_token : String := ""
  tg_chat_id : String := ""

/-- Model of `AppConfig.__post_init__`: both API keys must be truthy and
the account list non-empty, in that order. -/
def AppConfig.validate (c : AppConfig) : Except String AppConfig :=
  if c.resend_api_key = "" then .error "缺少 RESEND_API_KEY 环境变量"
  else if c.ai_api_key = "" then .error "缺少 AI_API_KEY 环境变量"
  else if c.accounts.isEmpty then .error "至少需要配置一个账号 (ACCOUNTS)"
  else .ok c

/-! ## `app/scheduler.py` -/

/-- The five cron fields handed to APScheduler's `CronTrigger` constructor.
Field-level validation (`*`, numbers, ranges, steps) happens inside the
APScheduler library and is outside this repository. -/
structure CronTrigger where
  minute : String
  hour : String
  day : String
  month : String
  day_of_week : String

/-- Error message of `parse_cron` for a wrong field count. -/
def parseCronMsg (cron_expr : String) : String :=
  "cron 表达式需要 5 个字段，当前: \x27" ++ cron_expr ++ "\x27"

/-- Model of `parse_cron`: trim, split on whitespace, require exactly five
fields, and build the trigger from them in order. -/
def parse_cron (cron_expr : String) : Except String CronTrigger :=
  let parts := pySplitWsL (pyStripL cron_expr.data)
  match parts with
  | [minute, hour, day, month, dow] =>
    .ok ⟨String.mk minute, String.mk hour, String.mk day, String.mk month, String.mk dow⟩
  | _ => .error (parseCronMsg cron_expr)

/-- A job registered on the blocking scheduler by `create_scheduler`. -/
structure Job where
  id : String
  trigger : CronTrigger
  misfire_grace_time : Nat

/-- Model of the registration loop of `create_scheduler`: one cron job per
account in order, job id `"sendmail_" + name`, misfire grace 300 seconds;
any exception is logged and re-raised, so the first bad account aborts the
whole construction and no scheduler is ever started. -/
def registerJobs : List AccountConfig → Except String (List Job)
  | [] => .ok []
  | a :: rest =>
    match parse_cron a.cron with
    | .error e => .error e
    | .ok trig =>
      match registerJobs rest with
      | .error e => .error e
      | .ok jobs => .ok ({ id := "sendmail_" ++ a.name, trigger := trig, misfire_grace_time := 300 } :: jobs)

/-! ## `app/telegram_notifier.py` -/

/-- Telegram notifier state: the constructor records the credentials and
computes `enabled = bool(bot_token and chat_id)`. -/
structure TelegramNotifier where
  bot_token : String
  chat_id : String

/-- Model of the `enabled` flag: both the token and the chat id must be
non-empty (Python truthiness of `bot_token and chat_id`). -/
def TelegramNotifier.enabled (t : TelegramNotifier) : Bool :=
  !t.bot_token.isEmpty && !t.chat_id.isEmpty

/-- One HTTP POST to the Telegram API as issued by `TelegramNotifier.send`. -/
structure NetCall where
  url : String
  chat_id : String
  text : String
  parse_mode : String
  timeout : Nat

/-- Model of `TelegramNotifier.send`: a disabled notifier returns at once
with no network call; otherwise one POST with a 10 second timeout is made
and any exception from it is logged and swallowed.  The result pairs the
network calls made with the exception (if any) escaping the method — by
construction always `none`, mirroring the `try`/`except Exception` body. -/
def TelegramNotifier.sendMsg (t : TelegramNotifier) (postResult : Except String Unit)
    (message : String) : List NetCall × Option String :=
  if t.enabled then
    let call : NetCall :=
      { url := "https://api.telegram.org/bot" ++ t.bot_token ++ "/sendMessage"
        chat_id := t.chat_id
        text := message
        parse_mode := "HTML"
        timeout := 10 }
    match postResult with
    | .ok _ => ([call], none)
    | .error _ => ([call], none)
  else ([], none)

/-- Message template of `notify_success`. -/
def successMsg (account_name to_email subject : String) : String :=
  "✅ <b>邮件发送成功</b>\n📋 账号: " ++ account_name
    ++ "\n📮 收件人: " ++ to_email ++ "\n📝 主题: " ++ subject

/-- Message template of `notify_failure`. -/
def failureMsg (account_name to_email error : String) : String :=
  "❌ <b>邮件发送失败</b>\n📋 账号: " ++ account_name
    ++ "\n📮 收件人: " ++ to_email ++ "\n⚠️ 错误: " ++ error

/-- Model of `TelegramNotifier.notify_success`. -/
def TelegramNotifier.notify_success (t : TelegramNotifier) (postResult : Except String Unit)
    (account_name to_email subject : String) : List NetCall × Option String :=
  t.sendMsg postResult (successMsg account_name to_email subject)

/-- Model of `TelegramNotifier.notify_failure`. -/
def TelegramNotifier.notify_failure (t : TelegramNotifier) (postResult : Except String Unit)
    (account_name to_email error : String) : List NetCall × Option String :=
  t.sendMsg postResult (failureMsg account_name to_email error)

/-! ## `send_email_task` (the per-job body) -/

/-- Observable calls made by one firing of `send_email_task`. -/
inductive TaskEvent where
  | sendAttempt (subject body : JsonVal)
  | notifySuccessCall (subject : JsonVal)
  | notifyFailureCall (error : String)

/-- Outcome of one firing: the calls made, in order, and the exception (if
any) escaping the task body into the scheduler. -/
structure TaskOutcome where
  events : List TaskEvent
  raised : Option String

/-- Model of `send_email_task`, with the generation and delivery transports
as oracles.  The whole body is wrapped in `try`/`except Exception`, whose
handler logs and calls `notify_failure` with `str(e)`; the notifier methods
themselves swallow their own errors (`TelegramNotifier.sendMsg` always
returns with no exception), so nothing propagates out of the task body. -/
def send_email_task (genResult : Except String EmailContent)
    (sendResult : EmailContent → Except String Unit) : TaskOutcome :=
  match genResult with
  | .error e => { events := [.notifyFailureCall e], raised := none }
  | .ok content =>
    match sendResult content with
    | .error e =>
      { events := [.sendAttempt content.subject content.body, .notifyFailureCall e], raised := none }
    | .ok _ =>
      { events := [.sendAttempt content.subject content.body, .notifySuccessCall content.subject],
        raised := none }


/-! ## Supporting lemmas -/

theorem splitNL_nil : splitNL [] = [[]] := rfl

theorem splitNL_cons_nl (t : List Char) : splitNL ('\n' :: t) = [] :: splitNL t := by
  simp [splitNL]

theorem splitNL_cons_other {c : Char} (hc : c ≠ '\n') (t : List Char)
    {a : List Char} {as : List (List Char)} (h : splitNL t = a :: as) :
    splitNL (c :: t) = (c :: a) :: as := by
  simp [splitNL, if_neg hc, h]

theorem splitNL_ne_nil (l : List Char) : splitNL l ≠ [] := by
  induction l with
  | nil => simp [splitNL]
  | cons c t ih =>
    by_cases hc : c = '\n'
    · subst hc; rw [splitNL_cons_nl]; simp
    · cases h : splitNL t with
      | nil => exact absurd h ih
      | cons a as => rw [splitNL_cons_other hc t h]; simp

theorem splitNL_append (x y : List Char) :
    splitNL (x ++ '\n' :: y) = splitNL x ++ splitNL y := by
  induction x with
  | nil => rw [List.nil_append, splitNL_cons_nl, splitNL_nil]; rfl
  | cons c t ih =>
    by_cases hc : c = '\n'
    · subst hc
      rw [List.cons_append, splitNL_cons_nl, splitNL_cons_nl, ih, List.cons_append]
    · cases h : splitNL t with
      | nil => exact absurd h (splitNL_ne_nil t)
      | cons a as =>
        have h2 : splitNL (t ++ '\n' :: y) = a :: (as ++ splitNL y) := by
          rw [ih, h, List.cons_append]
        rw [List.cons_append, splitNL_cons_other hc _ h2, splitNL_cons_other hc t h,
          List.cons_append]

theorem splitNL_of_no_newline (l : List Char) (h : ∀ c ∈ l, c ≠ '\n') :
    splitNL l = [l] := by
  induction l with
  | nil => rfl
  | cons c t ih =>
    have hc : c ≠ '\n' := h c (List.mem_cons_self c t)
    have ht : splitNL t = [t] := ih (fun d hd => h d (List.mem_cons_of_mem c hd))
    rw [splitNL_cons_other hc t ht]

theorem joinNL_nil : joinNL [] = [] := rfl

theorem joinNL_single (l : List Char) : joinNL [l] = l := rfl

theorem joinNL_cons2 (l m : List Char) (ms : List (List Char)) :
    joinNL (l :: m :: ms) = l ++ '\n' :: joinNL (m :: ms) := rfl

theorem joinNL_splitNL (l : List Char) : joinNL (splitNL l) = l := by
  induction l with
  | nil => rfl
  | cons c t ih =>
    cases h : splitNL t with
    | nil => exact absurd h (splitNL_ne_nil t)
    | cons a as =>
      rw [h] at ih
      by_cases hc : c = '\n'
      · subst hc
        rw [splitNL_cons_nl, h, joinNL_cons2, ih, List.nil_append]
      · rw [splitNL_cons_other hc t h]
        cases as with
        | nil =>
          rw [joinNL_single] at ih
          rw [joinNL_single, ih]
        | cons b bs =>
          rw [joinNL_cons2] at ih
          rw [joinNL_cons2, List.cons_append, ih]

theorem pyStripL_eq_self {l : List Char}
    (h1 : ∀ c, l.head? = some c → isPyWs c = false)
    (h2 : ∀ c, l.reverse.head? = some c → isPyWs c = false) :
    pyStripL l = l := by
  unfold pyStripL
  cases l with
  | nil => rfl
  | cons a t =>
    have ha : isPyWs a = false := h1 a rfl
    rw [List.dropWhile_cons_of_neg (by simp [ha])]
    cases hr : (a :: t).reverse with
    | nil => simp at hr
    | cons b r =>
      have hb : isPyWs b = false := h2 b (by rw [hr]; rfl)
      rw [List.dropWhile_cons_of_neg (by simp [hb]), ← hr, List.reverse_reverse]

theorem pyStripL_of_all {l : List Char} (h : ∀ c ∈ l, isPyWs c = false) :
    pyStripL l = l := by
  refine pyStripL_eq_self (fun c hc => ?_) (fun c hc => ?_)
  · cases l with
    | nil => simp at hc
    | cons a t =>
      simp only [List.head?_cons, Option.some.injEq] at hc
      exact hc ▸ h a (List.mem_cons_self a t)
  · cases hl : l.reverse with
    | nil => rw [hl] at hc; simp at hc
    | cons b r =>
      rw [hl] at hc
      simp only [List.head?_cons, Option.some.injEq] at hc
      have hm : b ∈ l := List.mem_reverse.mp (hl ▸ List.mem_cons_self b r)
      exact hc ▸ h b hm

theorem dropWhile_all_ws : ∀ l : List Char, (∀ c ∈ l, isPyWs c = true) →
    l.dropWhile isPyWs = [] := by
  intro l
  induction l with
  | nil => intro _; rfl
  | cons a t ih =>
    intro h
    rw [List.dropWhile_cons_of_pos (by simp [h a (List.mem_cons_self a t)])]
    exact ih (fun c hc => h c (List.mem_cons_of_mem a hc))

theorem pyStripL_all_ws {l : List Char} (h : ∀ c ∈ l, isPyWs c = true) :
    pyStripL l = [] := by
  unfold pyStripL
  rw [dropWhile_all_ws l h]
  rfl

theorem head?_append_left {α : Type} (a b : List α) (h : a ≠ []) :
    (a ++ b).head? = a.head? := by
  cases a with
  | nil => exact absurd rfl h
  | cons x xs => rfl

theorem reverseHeadMem {l : List Char} {c : Char} (h : l.reverse.head? = some c) : c ∈ l := by
  cases hl : l.reverse with
  | nil => rw [hl] at h; simp at h
  | cons b r =>
    rw [hl] at h
    simp only [List.head?_cons, Option.some.injEq] at h
    exact List.mem_reverse.mp (hl ▸ h ▸ List.mem_cons_self b r)

theorem no_newline_of_no_ws {l : List Char} (h : ∀ c ∈ l, isPyWs c = false) :
    ∀ c ∈ l, c ≠ '\n' := by
  intro c hc he
  have := h c hc
  rw [he] at this
  simp [isPyWs] at this

/-- Fence cleanup on a response of the shape `fence, newline, content,
newline, fence` recovers the content exactly, provided the fences carry no
whitespace and no content line starts (after stripping) with three
backticks. -/
theorem rawContentOf_fenced (f1 f2 s : String)
    (hf1 : startsWithTicks f1.data = true)
    (hf1w : ∀ c ∈ f1.data, isPyWs c = false)
    (hf2 : startsWithTicks f2.data = true)
    (hf2w : ∀ c ∈ f2.data, isPyWs c = false)
    (hs : ∀ l ∈ splitNL s.data, startsWithTicks (pyStripL l) = false) :
    rawContentOf (f1 ++ "\n" ++ s ++ "\n" ++ f2) = s.data := by
  obtain ⟨u1, hu1⟩ := List.isPrefixOf_iff_prefix.mp hf1
  obtain ⟨u2, hu2⟩ := List.isPrefixOf_iff_prefix.mp hf2
  have hW : (f1 ++ "\n" ++ s ++ "\n" ++ f2).data
      = f1.data ++ '\n' :: (s.data ++ '\n' :: f2.data) := by
    simp only [String.data_append, show ("\n" : String).data = ['\n'] from rfl,
      List.append_assoc, List.singleton_append, List.cons_append, List.nil_append]
  have hstrip : pyStripL (f1.data ++ '\n' :: (s.data ++ '\n' :: f2.data))
      = f1.data ++ '\n' :: (s.data ++ '\n' :: f2.data) := by
    refine pyStripL_eq_self (fun c hc => ?_) (fun c hc => ?_)
    · rw [← hu1] at hc
      have hbt : (((fenceChars ++ u1) ++ '\n' :: (s.data ++ '\n' :: f2.data)).head?)
          = some backtick := rfl
      rw [hbt] at hc
      simp only [Option.some.injEq] at hc
      rw [← hc]
      decide
    · have hsh : f1.data ++ '\n' :: (s.data ++ '\n' :: f2.data)
          = (f1.data ++ '\n' :: (s.data ++ ['\n'])) ++ f2.data := by
        simp [List.append_assoc]
      rw [hsh, List.reverse_append] at hc
      have hne : f2.data.reverse ≠ [] := by
        rw [← hu2]
        simp [fenceChars]
      rw [head?_append_left _ _ hne] at hc
      exact hf2w c (reverseHeadMem hc)
  have hticks : startsWithTicks (f1.data ++ '\n' :: (s.data ++ '\n' :: f2.data)) = true := by
    unfold startsWithTicks
    refine List.isPrefixOf_iff_prefix.mpr ⟨u1 ++ '\n' :: (s.data ++ '\n' :: f2.data), ?_⟩
    rw [← List.append_assoc, hu1]
  have hsplit : splitNL (f1.data ++ '\n' :: (s.data ++ '\n' :: f2.data))
      = [f1.data] ++ (splitNL s.data ++ [f2.data]) := by
    rw [splitNL_append, splitNL_append,
      splitNL_of_no_newline f1.data (no_newline_of_no_ws hf1w),
      splitNL_of_no_newline f2.data (no_newline_of_no_ws hf2w)]
  have hkeep1 : (!(startsWithTicks (pyStripL f1.data))) = false := by
    rw [pyStripL_of_all hf1w, hf1]; rfl
  have hkeep2 : (!(startsWithTicks (pyStripL f2.data))) = false := by
    rw [pyStripL_of_all hf2w, hf2]; rfl
  unfold rawContentOf
  rw [hW, hstrip]
  unfold cleanContentL
  rw [if_pos hticks, hsplit, List.filter_append, List.filter_append]
  rw [show List.filter (fun l => !(startsWithTicks (pyStripL l))) [f1.data] = [] by
    simp [List.filter, hkeep1]]
  rw [show List.filter (fun l => !(startsWithTicks (pyStripL l))) [f2.data] = [] by
    simp [List.filter, hkeep2]]
  rw [List.filter_eq_self.mpr (fun l hl => by rw [hs l hl]; rfl)]
  rw [List.nil_append, List.append_nil, joinNL_splitNL]

/-- An already-stripped, unfenced content passes through the cleanup
untouched. -/
theorem rawContentOf_id (s : String)
    (hstrip : pyStripL s.data = s.data)
    (hnof : startsWithTicks s.data = false) :
    rawContentOf s = s.data := by
  unfold rawContentOf cleanContentL
  rw [hstrip, if_neg (by rw [hnof]; exact Bool.false_ne_true)]

/-! ## Claims -/

/-- C1 (counterexample to the claim as stated): the response
`"hello there\n"` fails to parse as JSON, yet the fallback body is the
stripped content `"hello there"`, not the entire raw model response
`"hello there\n"`. -/
theorem generate_fallback_raw_body_cex :
    jsonLoadsL (rawContentOf "hello there\n") = none
    ∧ generateFromResponse "hello there\n" "" = .ok ⟨.jstr "日常问候", .jstr "hello there"⟩
    ∧ ("hello there" : String) ≠ "hello there\n" :=
  ⟨rfl, rfl, by decide⟩

/-- C1 (amended): for every model response whose cleaned content fails to
parse as JSON, `generate` does not raise: it returns an `EmailContent` whose
body is the model response after whitespace stripping and fence cleanup
(equal to the raw response whenever that is already stripped and unfenced),
and whose subject is the fixed fallback label "日常问候" with the subject
prefix prepended when it is non-empty. -/
theorem generate_json_failure_falls_back (raw pfx : String)
    (h : jsonLoadsL (rawContentOf raw) = none) :
    generateFromResponse raw pfx
      = .ok ⟨.jstr (if pfx ≠ "" then pfx ++ "日常问候" else "日常问候"),
             .jstr (String.mk (rawContentOf raw))⟩ := by
  unfold generateFromResponse generateFromCleaned
  rw [h]

/-- Witness for C1: the non-JSON response "hello there" with prefix "[P]"
takes the fallback path. -/
theorem generate_json_failure_falls_back_witness :
    jsonLoadsL (rawContentOf "hello there") = none
    ∧ generateFromResponse "hello there" "[P]"
      = .ok ⟨.jstr "[P]日常问候", .jstr "hello there"⟩ :=
  ⟨rfl, (generate_json_failure_falls_back "hello there" "[P]" rfl).trans rfl⟩

/-- C2: for every model response parsing to a JSON object whose "body" is
absent or the empty string, `generate` raises the generation error (a
`ValueError` not caught by the `JSONDecodeError` handler, re-raised by the
final handler), so no `EmailContent` with an empty body is returned on the
valid-JSON path. -/
theorem generate_empty_body_raises (raw pfx : String) (m : List (String × JsonVal))
    (hparse : jsonLoadsL (rawContentOf raw) = some (.jobj m))
    (hbody : dictGet m "body" = none ∨ dictGet m "body" = some (.jstr "")) :
    generateFromResponse raw pfx = .error "AI 返回的邮件正文为空" := by
  unfold generateFromResponse generateFromCleaned
  rw [hparse]
  cases hbody with
  | inl h => simp only [h]; rfl
  | inr h => simp only [h]; rfl

/-- Witness for C2: a valid JSON object with an absent body raises. -/
theorem generate_empty_body_raises_witness :
    jsonLoadsL (rawContentOf "\x7b\x22subject\x22:\x22S\x22\x7d")
      = some (.jobj [("subject", .jstr "S")])
    ∧ generateFromResponse "\x7b\x22subject\x22:\x22S\x22\x7d" ""
      = .error "AI 返回的邮件正文为空" :=
  ⟨rfl, generate_empty_body_raises "\x7b\x22subject\x22:\x22S\x22\x7d" ""
    [("subject", .jstr "S")] rfl (Or.inl rfl)⟩

/-- C3: on the exact response `{"subject":"S","body":"B"}` `generate`
returns subject "S" and body "B", with the subject prefix concatenated
directly before "S" (for an empty prefix the concatenation is the identity,
matching the untouched-subject branch of the code). -/
theorem generate_exact_json ( pfx : String) :
    generateFromResponse "\x7b\x22subject\x22:\x22S\x22,\x22body\x22:\x22B\x22\x7d" pfx
      = .ok ⟨.jstr ( pfx ++ "S"), .jstr "B"⟩ := by
  unfold generateFromResponse generateFromCleaned
  rw [show jsonLoadsL (rawContentOf "\x7b\x22subject\x22:\x22S\x22,\x22body\x22:\x22B\x22\x7d")
      = some (.jobj [("subject", .jstr "S"), ("body", .jstr "B")]) from rfl]
  by_cases h : pfx = ""
  · subst h; rfl
  · simp only [ne_eq, h, not_false_eq_true, if_true, if_pos]
    rfl

/-- C4: a model response equal to any content wrapped between a leading and
a trailing code-fence line (whitespace-free lines starting with three
backticks) produces exactly the same result as the unfenced content, for
any already-stripped content none of whose lines starts with a fence; in
particular a fenced valid JSON object parses the same as the unfenced one. -/
theorem generate_fenced_equals_unfenced (f1 f2 s pfx : String)
    (hf1 : startsWithTicks f1.data = true)
    (hf1w : ∀ c ∈ f1.data, isPyWs c = false)
    (hf2 : startsWithTicks f2.data = true)
    (hf2w : ∀ c ∈ f2.data, isPyWs c = false)
    (hs : ∀ l ∈ splitNL s.data, startsWithTicks (pyStripL l) = false)
    (hstrip : pyStripL s.data = s.data)
    (hnof : startsWithTicks s.data = false) :
    generateFromResponse (f1 ++ "\n" ++ s ++ "\n" ++ f2) pfx = generateFromResponse s pfx := by
  unfold generateFromResponse
  rw [rawContentOf_fenced f1 f2 s hf1 hf1w hf2 hf2w hs, rawContentOf_id s hstrip hnof]

/-- Witness for C4: the fenced JSON object parses identically to the bare
one and yields subject "S", body "B". -/
theorem generate_fenced_equals_unfenced_witness :
    generateFromResponse
        ("```json" ++ "\n" ++ "\x7b\x22subject\x22:\x22S\x22,\x22body\x22:\x22B\x22\x7d" ++ "\n" ++ "```") ""
      = generateFromResponse "\x7b\x22subject\x22:\x22S\x22,\x22body\x22:\x22B\x22\x7d" ""
    ∧ generateFromResponse "\x7b\x22subject\x22:\x22S\x22,\x22body\x22:\x22B\x22\x7d" ""
      = .ok ⟨.jstr "S", .jstr "B"⟩ :=
  ⟨generate_fenced_equals_unfenced "```json" "```"
      "\x7b\x22subject\x22:\x22S\x22,\x22body\x22:\x22B\x22\x7d" ""
      (by decide) (by decide) (by decide) (by decide) (by decide) (by decide) (by decide),
    rfl⟩

/-- C5: a task firing whose generation step raises calls `notify_failure`
exactly once, with the exception text, makes no send attempt, and lets no
exception escape the task body. -/
theorem task_generation_failure_notifies_once (e : String)
    (sendResult : EmailContent → Except String Unit) :
    (send_email_task (.error e) sendResult).events = [.notifyFailureCall e]
    ∧ (send_email_task (.error e) sendResult).raised = none :=
  ⟨rfl, rfl⟩

/-- C9: when the parsed JSON object carries "subject" bound to the empty
string and a non-empty "body", the fallback subject is not substituted —
the key is present, so `dict.get` returns the empty string and the result
subject is exactly the prefix (the empty string when no prefix is set). -/
theorem generate_empty_subject_key (raw pfx b : String) (m : List (String × JsonVal))
    (hparse : jsonLoadsL (rawContentOf raw) = some (.jobj m))
    (hsub : dictGet m "subject" = some (.jstr ""))
    (hbody : dictGet m "body" = some (.jstr b))
    (hbne : b ≠ "") :
    generateFromResponse raw pfx = .ok ⟨.jstr pfx, .jstr b⟩ := by
  unfold generateFromResponse generateFromCleaned
  rw [hparse]
  have hbe : b.isEmpty = false := by
    rw [Bool.eq_false_iff]
    intro hB
    exact hbne ((String.isEmpty_iff b).mp hB)
  have htr : pyTruthy (.jstr b) = true := by
    simp [pyTruthy, hbe]
  by_cases h : pfx = ""
  · subst h
    simp only [hsub, hbody, Option.getD_some, htr]
    rfl
  · simp only [hsub, hbody, Option.getD_some, ne_eq, h, not_false_eq_true, if_true, htr,
      Bool.not_true]
    simp [pyStr]

/-- Witness for C9: subject present but empty, prefix "[P]" — the result
subject is exactly the prefix. -/
theorem generate_empty_subject_key_witness :
    jsonLoadsL (rawContentOf "\x7b\x22subject\x22:\x22\x22,\x22body\x22:\x22hi\x22\x7d")
      = some (.jobj [("subject", .jstr ""), ("body", .jstr "hi")])
    ∧ generateFromResponse "\x7b\x22subject\x22:\x22\x22,\x22body\x22:\x22hi\x22\x7d" "[P]"
      = .ok ⟨.jstr "[P]", .jstr "hi"⟩ :=
  ⟨rfl, generate_empty_subject_key "\x7b\x22subject\x22:\x22\x22,\x22body\x22:\x22hi\x22\x7d"
    "[P]" "hi" [("subject", .jstr ""), ("body", .jstr "hi")] rfl rfl rfl (by decide)⟩

/-- C10: an empty or whitespace-only model response does not raise: the
stripped content is empty, JSON parsing fails, and the fallback path
returns an `EmailContent` whose body is the empty string — the empty-body
error guards only the valid-JSON path, so a content-less email can still be
attempted. -/
theorem generate_whitespace_response (raw pfx : String)
    (h : ∀ c ∈ raw.data, isPyWs c = true) :
    generateFromResponse raw pfx
      = .ok ⟨.jstr (if pfx ≠ "" then pfx ++ "日常问候" else "日常问候"), .jstr ""⟩ := by
  have hstrip : pyStripL raw.data = [] := pyStripL_all_ws h
  have hraw : rawContentOf raw = [] := by
    unfold rawContentOf
    rw [hstrip]
    rfl
  unfold generateFromResponse
  rw [hraw]
  rfl

/-- Witness for C10: the whitespace-only response `" \n\t"` yields the
fallback subject and an empty body. -/
theorem generate_whitespace_response_witness :
    (∀ c ∈ (" \n\t" : String).data, isPyWs c = true)
    ∧ generateFromResponse " \n\t" "" = .ok ⟨.jstr "日常问候", .jstr ""⟩ :=
  ⟨by decide, (generate_whitespace_response " \n\t" "" (by decide)).trans rfl⟩

/-- C6: an account configuration with any required field empty after
trimming is rejected with an error naming a missing field (the first such
field, as the validation loop checks them in order), and an application
configuration with an empty account list is rejected as well. -/
theorem config_missing_field_rejected :
    (∀ a : AccountConfig,
      (∃ n ∈ requiredFields, pyStripS (getattrStr a n) = "") →
      ∃ n ∈ requiredFields, pyStripS (getattrStr a n) = ""
        ∧ AccountConfig.validate a = .error (missingFieldMsg n))
    ∧ (∀ c : AppConfig, c.accounts = [] → ∃ e, AppConfig.validate c = .error e) := by
  constructor
  · intro a hex
    have hsome : (requiredFields.find? (fun n => pyStripS (getattrStr a n) == "")).isSome := by
      rw [List.find?_isSome]
      obtain ⟨n, hn, hp⟩ := hex
      exact ⟨n, hn, by simp [hp]⟩
    obtain ⟨n₀, hfind⟩ := Option.isSome_iff_exists.mp hsome
    refine ⟨n₀, List.mem_of_find?_eq_some hfind, ?_, ?_⟩
    · have hp := List.find?_some hfind
      simpa using hp
    · unfold AccountConfig.validate
      rw [hfind]
  · intro c hc
    unfold AppConfig.validate
    by_cases h1 : c.resend_api_key = ""
    · exact ⟨_, by rw [if_pos h1]⟩
    · by_cases h2 : c.ai_api_key = ""
      · exact ⟨_, by rw [if_neg h1, if_pos h2]⟩
      · exact ⟨"至少需要配置一个账号 (ACCOUNTS)",
          by rw [if_neg h1, if_neg h2, if_pos (by rw [hc]; rfl)]⟩

/-- Witness for C6: an account with an empty `from_email` is rejected with
an error naming a missing field, and an `AppConfig` with no accounts is
rejected. -/
theorem config_missing_field_rejected_witness :
    (∃ n ∈ requiredFields,
      pyStripS (getattrStr ⟨"acct", " ", "Bob", "to@x.com", "0 8 * * *", "prompt", ""⟩ n) = ""
        ∧ AccountConfig.validate ⟨"acct", " ", "Bob", "to@x.com", "0 8 * * *", "prompt", ""⟩
          = .error (missingFieldMsg n))
    ∧ ∃ e, AppConfig.validate ⟨"rk", "ak", "https://api", "gpt", [], "UTC", "", ""⟩ = .error e :=
  ⟨config_missing_field_rejected.1 ⟨"acct", " ", "Bob", "to@x.com", "0 8 * * *", "prompt", ""⟩
      ⟨"from_email", by decide, by decide⟩,
    config_missing_field_rejected.2 ⟨"rk", "ak", "https://api", "gpt", [], "UTC", "", ""⟩ rfl⟩

/-- C7: a cron string that does not split into exactly five
whitespace-separated fields is rejected by `parse_cron` and already by
`AccountConfig.__post_init__` — both run at configuration or scheduler
construction time, before any job can fire — and job registration for an
account list containing such an account aborts with an error, producing no
job list at all (no partial scheduling of the remaining accounts). -/
theorem bad_cron_aborts_startup (pre post : List AccountConfig) (a : AccountConfig)
    (hbad : (pySplitWsL (pyStripL a.cron.data)).length ≠ 5) :
    (∃ e, parse_cron a.cron = .error e)
    ∧ (∃ e, AccountConfig.validate a = .error e)
    ∧ (∃ e, registerJobs (pre ++ a :: post) = .error e) := by
  have hpc : parse_cron a.cron = .error (parseCronMsg a.cron) := by
    simp only [parse_cron]
    split
    · rename_i m h d mo dw heq
      rw [heq] at hbad
      simp at hbad
    · rfl
  refine ⟨⟨_, hpc⟩, ?_, ?_⟩
  · unfold AccountConfig.validate
    cases hf : requiredFields.find? (fun n => pyStripS (getattrStr a n) == "") with
    | some n => exact ⟨_, rfl⟩
    | none =>
      exact ⟨cronFormatMsg a (pySplitWsL (pyStripL a.cron.data)).length, by simp [hbad]⟩
  · induction pre with
    | nil =>
      exact ⟨_, by rw [List.nil_append]; unfold registerJobs; rw [hpc]⟩
    | cons p pre' ih =>
      obtain ⟨e', he'⟩ := ih
      rw [List.cons_append]
      cases hp : parse_cron p.cron with
      | error e2 => exact ⟨e2, by unfold registerJobs; rw [hp]⟩
      | ok trig => exact ⟨e', by unfold registerJobs; rw [hp, he']⟩

/-- Witness for C7: the three-field cron "1 2 3" aborts registration even
with a good account scheduled before it. -/
theorem bad_cron_aborts_startup_witness :
    ((pySplitWsL (pyStripL ("1 2 3" : String).data)).length ≠ 5)
    ∧ (∃ e, parse_cron "1 2 3" = .error e)
    ∧ (∃ e, AccountConfig.validate ⟨"b", "f@x", "F", "t@x", "1 2 3", "p", ""⟩ = .error e)
    ∧ (∃ e, registerJobs
        ([⟨"a", "f@x", "F", "t@x", "0 8 * * *", "p", ""⟩]
          ++ ⟨"b", "f@x", "F", "t@x", "1 2 3", "p", ""⟩ :: []) = .error e) := by
  have h := bad_cron_aborts_startup [⟨"a", "f@x", "F", "t@x", "0 8 * * *", "p", ""⟩] []
    ⟨"b", "f@x", "F", "t@x", "1 2 3", "p", ""⟩ (by decide)
  exact ⟨by decide, h.1, h.2.1, h.2.2⟩

/-- C8: a notifier constructed with an empty bot token or an empty chat id
is disabled and makes no network call from either notification method; and
for any notifier, any outcome of the POST — including failure — is
swallowed, so neither method ever raises to its caller. -/
theorem notifier_disabled_and_swallows (t : TelegramNotifier) (post : Except String Unit)
    (name email subj err : String) :
    ((t.bot_token = "" ∨ t.chat_id = "") →
      (t.notify_success post name email subj).1 = []
      ∧ (t.notify_failure post name email err).1 = [])
    ∧ (t.notify_success post name email subj).2 = none
    ∧ (t.notify_failure post name email err).2 = none := by
  have hswallow : ∀ msg, (t.sendMsg post msg).2 = none := by
    intro msg
    unfold TelegramNotifier.sendMsg
    by_cases he : t.enabled = true
    · rw [if_pos he]
      cases post <;> rfl
    · rw [if_neg he]
  have hdis : (t.bot_token = "" ∨ t.chat_id = "") → ∀ msg, (t.sendMsg post msg).1 = [] := by
    intro h msg
    have he : t.enabled = false := by
      unfold TelegramNotifier.enabled
      cases h with
      | inl h1 =>
        rw [h1]
        show (false && !t.chat_id.isEmpty) = false
        rw [Bool.false_and]
      | inr h2 =>
        rw [h2]
        show (!t.bot_token.isEmpty && false) = false
        rw [Bool.and_false]
    unfold TelegramNotifier.sendMsg
    rw [if_neg (by rw [he]; exact Bool.false_ne_true)]
  exact ⟨fun h => ⟨hdis h _, hdis h _⟩, hswallow _, hswallow _⟩

/-- Witness for C8: an empty token disables both notifications, and a
configured notifier swallows a failing POST. -/
theorem notifier_disabled_and_swallows_witness :
    ((⟨"", "123"⟩ : TelegramNotifier).notify_success (.error "boom") "a" "b@c" "s").1 = []
    ∧ ((⟨"", "123"⟩ : TelegramNotifier).notify_failure (.error "boom") "a" "b@c" "e").1 = []
    ∧ ((⟨"tok", "123"⟩ : TelegramNotifier).notify_failure (.error "boom") "a" "b@c" "e").2 = none := by
  have h1 := notifier_disabled_and_swallows ⟨"", "123"⟩ (.error "boom") "a" "b@c" "s" "e"
  have h2 := notifier_disabled_and_swallows ⟨"tok", "123"⟩ (.error "boom") "a" "b@c" "s" "e"
  exact ⟨(h1.1 (Or.inl rfl)).1, (h1.1 (Or.inl rfl)).2, h2.2.2⟩
